import Mathlib

/-!
Shallow embedding of oslo.vmware datastore objects
(src/oslo/vmware/objects/datastore.py) and the Python library functions
they rely on (posixpath.join, posixpath.dirname, posixpath.basename,
str.split with maxsplit 1, str.strip). Python strings are modelled as
lists of characters; Python None is modelled with Option; Python
exceptions (ValueError, IndexError) are modelled with an error type
returned through Except.
-/

deriving instance DecidableEq for Except

/-- Python strings, modelled as lists of characters. -/
abbrev PyStr := List Char

/-- Conversion from a Lean string literal to the model of Python strings. -/
def pystr (s : String) : PyStr := s.data

/-- Exceptions raised by the code under study: ValueError (the
validation failure the spec calls InvalidArgument) and IndexError
(raised by indexing the result of str.split). -/
inductive PyError where
  | valueError
  | indexError
deriving DecidableEq, Repr

/-- One step of CPython posixpath.join: given the accumulated path and
the next component b, replace the accumulation when b is absolute,
append directly when the accumulation is empty or already ends in a
slash, and otherwise insert exactly one slash. -/
def joinStep (path b : PyStr) : PyStr :=
  if b.head? = some '/' then b
  else if path = [] ∨ path.getLast? = some '/' then path ++ b
  else path ++ '/' :: b

/-- CPython posixpath.join(a, *p): fold joinStep over the later
components starting from the first. -/
def posixJoin (a : PyStr) (p : List PyStr) : PyStr :=
  p.foldl joinStep a

/-- CPython posixpath.basename(p): the substring after the last slash
(p[i:] where i = p.rfind(sep) + 1). -/
def posixBasename (p : PyStr) : PyStr :=
  (p.reverse.takeWhile (fun c => c ≠ '/')).reverse

/-- The head part p[:i] of CPython posixpath.split, i = p.rfind(sep)+1:
everything up to and including the last slash. -/
def splitHead (p : PyStr) : PyStr :=
  (p.reverse.dropWhile (fun c => c ≠ '/')).reverse

/-- CPython posixpath.dirname(p): the head part of posixpath.split with
trailing slashes stripped unless the head consists only of slashes. -/
def posixDirname (p : PyStr) : PyStr :=
  let head := splitHead p
  if head ≠ [] ∧ ¬ (head.all (fun c => c = '/')) then
    (head.reverse.dropWhile (fun c => c = '/')).reverse
  else head

/-- Python str.isspace for the ASCII whitespace characters removed by
str.strip(): space, tab, newline, carriage return, vertical tab,
form feed. -/
def isPySpace (c : Char) : Bool :=
  c = ' ' || c = '\t' || c = '\n' || c = '\r' ||
    c = Char.ofNat 11 || c = Char.ofNat 12

/-- Python str.lstrip(): drop leading whitespace. -/
def pyLStrip (s : PyStr) : PyStr := s.dropWhile isPySpace

/-- Python str.rstrip(): drop trailing whitespace. -/
def pyRStrip (s : PyStr) : PyStr := (s.reverse.dropWhile isPySpace).reverse

/-- Python str.strip(): drop leading and trailing whitespace. -/
def pyStrip (s : PyStr) : PyStr := pyRStrip (pyLStrip s)

/-- Python s.split(c, 1): none when c does not occur in s (the split
yields a single part), otherwise the parts before and after the first
occurrence of c. -/
def splitFirst (c : Char) : PyStr → Option (PyStr × PyStr)
  | [] => none
  | x :: xs =>
    if x = c then some ([], xs)
    else match splitFirst c xs with
      | none => none
      | some (a, b) => some (x :: a, b)

/-- The DatastorePath value: an owning datastore name together with a
relative path, both strings, as stored by DatastorePath.__init__. -/
structure DatastorePath where
  datastore_name : PyStr
  rel_path : PyStr
deriving DecidableEq, Repr

/-- DatastorePath.__init__(datastore_name, *paths): reject an empty (or
absent) datastore name, store rel_path = "" when no path component is
given, reject a None component, and otherwise store the posixpath.join
of the components. -/
def DatastorePath.init (datastore_name : PyStr) (paths : List (Option PyStr)) :
    Except PyError DatastorePath :=
  if datastore_name = [] then .error .valueError
  else
    match paths with
    | [] => .ok ⟨datastore_name, []⟩
    | a :: rest =>
      if none ∈ (a :: rest) then .error .valueError
      else .ok ⟨datastore_name,
        posixJoin (a.getD []) (rest.map (fun o => o.getD []))⟩

/-- The datastore property of DatastorePath: the stored datastore name. -/
def DatastorePath.datastore (p : DatastorePath) : PyStr := p.datastore_name

/-- DatastorePath.__str__: "[name] rel" when the relative path is
non-empty, "[name]" otherwise. -/
def DatastorePath.toStr (p : DatastorePath) : PyStr :=
  if p.rel_path ≠ [] then
    '[' :: (p.datastore_name ++ ']' :: ' ' :: p.rel_path)
  else '[' :: (p.datastore_name ++ [']'])

/-- The parent property: a DatastorePath built from the same datastore
name and the posixpath.dirname of the relative path. -/
def DatastorePath.parent (p : DatastorePath) : Except PyError DatastorePath :=
  DatastorePath.init p.datastore [some (posixDirname p.rel_path)]

/-- The basename property: posixpath.basename of the relative path. -/
def DatastorePath.basename (p : DatastorePath) : PyStr :=
  posixBasename p.rel_path

/-- The dirname property: posixpath.dirname of the relative path. -/
def DatastorePath.dirname (p : DatastorePath) : PyStr :=
  posixDirname p.rel_path

/-- DatastorePath.join(*paths): with no components return self, reject a
None component, otherwise construct from the same datastore name with
the current relative path prepended to the components. -/
def DatastorePath.join (p : DatastorePath) (paths : List (Option PyStr)) :
    Except PyError DatastorePath :=
  match paths with
  | [] => .ok p
  | _ :: _ =>
    if none ∈ paths then .error .valueError
    else DatastorePath.init p.datastore (some p.rel_path :: paths)

/-- A Python value compared against a DatastorePath by __eq__: either
another DatastorePath or a value of some other type (carrying an
arbitrary payload). -/
inductive PyVal where
  | dsPath (p : DatastorePath)
  | other (v : String)
deriving DecidableEq, Repr

/-- DatastorePath.__eq__: an isinstance check followed by structural
comparison of the datastore name and relative path. -/
def DatastorePath.pyEq (p : DatastorePath) (o : PyVal) : Bool :=
  match o with
  | .dsPath q => p.datastore_name == q.datastore_name && p.rel_path == q.rel_path
  | .other _ => false

/-- DatastorePath.parse: reject an empty string, index the part after
the first left bracket (IndexError when there is none), split it at the
first right bracket, and construct from the extracted name and the
whitespace-stripped path part. -/
def DatastorePath.parse (datastore_path : PyStr) : Except PyError DatastorePath :=
  if datastore_path = [] then .error .valueError
  else
    match splitFirst '[' datastore_path with
    | none => .error .indexError
    | some (_, afterBracket) =>
      match splitFirst ']' afterBracket with
      | none => DatastorePath.init afterBracket [some (pyStrip [])]
      | some (datastore_name, path) =>
        DatastorePath.init datastore_name [some (pyStrip path)]

/-- The Datastore value: reference, name and the optional capacity and
freespace, as stored by Datastore.__init__. -/
structure Datastore where
  ref : String
  name : PyStr
  capacity : Option Int
  freespace : Option Int
deriving DecidableEq, Repr

/-- Datastore.__init__(ref, name, capacity, freespace): reject a None
name, a None ref, a freespace given without a capacity, and a capacity
smaller than the freespace; otherwise store the given values. -/
def Datastore.init (ref : Option String) (name : Option PyStr)
    (capacity freespace : Option Int) : Except PyError Datastore :=
  match name with
  | none => .error .valueError
  | some n =>
    match ref with
    | none => .error .valueError
    | some r =>
      match capacity, freespace with
      | none, some _ => .error .valueError
      | some c, some f =>
        if c < f then .error .valueError else .ok ⟨r, n, some c, some f⟩
      | c, none => .ok ⟨r, n, c, none⟩

/-- Datastore.build_path(*paths): a DatastorePath rooted at this
datastore name with the given components. -/
def Datastore.build_path (d : Datastore) (paths : List (Option PyStr)) :
    Except PyError DatastorePath :=
  DatastorePath.init d.name paths

/-- Datastore.__str__: the name in brackets. -/
def Datastore.toStr (d : Datastore) : PyStr :=
  '[' :: (d.name ++ [']'])

/-- Modelled from the spec's words on rendering: "[name]" when rel_path
is empty, else "[name] rel_path" with exactly one space after the
closing bracket. Stated independently of DatastorePath.toStr so the two
can be compared. -/
def renderSpec (p : DatastorePath) : PyStr :=
  if p.rel_path = [] then pystr "[" ++ p.datastore_name ++ pystr "]"
  else pystr "[" ++ p.datastore_name ++ pystr "] " ++ p.rel_path

/-- Modelled from the spec's words on joining: concatenate the segments
left to right with exactly one slash between adjacent segments. -/
def joinSpec (a : PyStr) : List PyStr → PyStr
  | [] => a
  | b :: t => a ++ '/' :: joinSpec b t

/-! Helper lemmas about the embedded library functions. -/

theorem splitFirst_not_mem {c : Char} : ∀ {s : PyStr}, c ∉ s → splitFirst c s = none
  | [], _ => rfl
  | x :: xs, h => by
    have hx : ¬ x = c := fun e => h (e ▸ List.mem_cons_self x xs)
    have hxs : c ∉ xs := fun m => h (List.mem_cons_of_mem x m)
    simp [splitFirst, hx, splitFirst_not_mem hxs]

theorem splitFirst_cons_self (c : Char) (r : PyStr) :
    splitFirst c (c :: r) = some ([], r) := by
  simp [splitFirst]

theorem splitFirst_append_cons {c : Char} (r : PyStr) :
    ∀ {a : PyStr}, c ∉ a → splitFirst c (a ++ c :: r) = some (a, r)
  | [], _ => splitFirst_cons_self c r
  | x :: xs, h => by
    have hx : ¬ x = c := fun e => h (e ▸ List.mem_cons_self x xs)
    have hxs : c ∉ xs := fun m => h (List.mem_cons_of_mem x m)
    simp [splitFirst, hx, splitFirst_append_cons r hxs]

theorem init_single {dn : PyStr} (x : PyStr) (h : dn ≠ []) :
    DatastorePath.init dn [some x] = .ok ⟨dn, x⟩ := by
  simp [DatastorePath.init, h, posixJoin]

theorem pyLStrip_cons_space (s : PyStr) : pyLStrip (' ' :: s) = pyLStrip s := by
  simp [pyLStrip, List.dropWhile_cons, isPySpace]

theorem pyStrip_cons_space (s : PyStr) : pyStrip (' ' :: s) = pyStrip s := by
  unfold pyStrip
  rw [pyLStrip_cons_space]

theorem rev_suffix_pre {l₁ l₂ : PyStr} (h : l₁ <:+ l₂) : l₁.reverse <+: l₂.reverse := by
  rcases h with ⟨t, rfl⟩
  exact ⟨t.reverse, by rw [List.reverse_append]⟩

theorem pre_head {l₁ l₂ : PyStr} {c : Char} (h : l₁ <+: l₂) (h2 : l₂.head? ≠ some c) :
    l₁.head? ≠ some c := by
  rcases h with ⟨t, rfl⟩
  cases l₁ with
  | nil => simp
  | cons x xs => simpa using h2

theorem splitHead_pre (p : PyStr) : splitHead p <+: p := by
  have h := rev_suffix_pre (List.dropWhile_suffix (l := p.reverse) (fun c => c ≠ '/'))
  rwa [List.reverse_reverse] at h

theorem posixDirname_pre (p : PyStr) : posixDirname p <+: p := by
  simp only [posixDirname]
  split
  · have h := rev_suffix_pre
      (List.dropWhile_suffix (l := (splitHead p).reverse) (fun c => c = '/'))
    rw [List.reverse_reverse] at h
    exact h.trans (splitHead_pre p)
  · exact splitHead_pre p

/-- Claim C2 (counterexample): DatastorePath("ds", "a/b").join("/c/d")
yields rel_path "/c/d", not "c/d" as the claim states: the result keeps
the leading slash of the absolute component. -/
theorem join_abs_counterexample :
    ((DatastorePath.init (pystr "ds") [some (pystr "a/b")]).bind
      (fun p => p.join [some (pystr "/c/d")]) =
      .ok ⟨pystr "ds", pystr "/c/d"⟩) ∧
    pystr "/c/d" ≠ pystr "c/d" := by
  decide

/-- Claim C2 (amended): DatastorePath("ds", "a/b").join("/c/d") yields a
path whose rel_path equals "/c/d": the absolute component discards all
previously accumulated segments, and the result keeps the leading
slash. -/
theorem join_abs_reset :
    (DatastorePath.init (pystr "ds") [some (pystr "a/b")]).bind
      (fun p => p.join [some (pystr "/c/d")]) =
      .ok ⟨pystr "ds", pystr "/c/d"⟩ := by
  decide

/-- Claim C4: parse fails with ValueError (the InvalidArgument
validation error) on the empty string, fails with the distinct
IndexError on every non-empty string containing no left bracket, and in
particular fails on "no-brackets-here". -/
theorem parse_error_cases :
    DatastorePath.parse [] = .error .valueError ∧
    (∀ s : PyStr, s ≠ [] → '[' ∉ s → DatastorePath.parse s = .error .indexError) ∧
    DatastorePath.parse (pystr "no-brackets-here") = .error .indexError ∧
    PyError.indexError ≠ PyError.valueError := by
  refine ⟨by decide, ?_, by decide, by decide⟩
  intro s hne hnotin
  simp [DatastorePath.parse, hne, splitFirst_not_mem hnotin]

/-- Claim C4 (witness): the general clause applied to the concrete
non-empty bracket-free string "xyz". -/
theorem parse_error_cases_witness :
    pystr "xyz" ≠ [] ∧ '[' ∉ pystr "xyz" ∧
    DatastorePath.parse (pystr "xyz") = .error .indexError :=
  ⟨by decide, by decide,
    parse_error_cases.2.1 (pystr "xyz") (by decide) (by decide)⟩

/-- Claim C7: the string rendering agrees with the spec's canonical
form ("[name]" when rel_path is empty, else "[name] rel_path" with
exactly one space), and on DatastorePath("datastore1", "_base/foo",
"foo.vmdk") it yields "[datastore1] _base/foo/foo.vmdk". -/
theorem render_canonical :
    (∀ p : DatastorePath, p.toStr = renderSpec p) ∧
    ((DatastorePath.init (pystr "datastore1")
        [some (pystr "_base/foo"), some (pystr "foo.vmdk")]).map
      DatastorePath.toStr =
      .ok (pystr "[datastore1] _base/foo/foo.vmdk")) := by
  constructor
  · intro p
    by_cases h : p.rel_path = [] <;>
      simp [DatastorePath.toStr, renderSpec, h, pystr]
  · decide

/-- Claim C8: DatastorePath equality is structural on the pair of the
datastore name and the relative path, and comparison against a value of
any other type yields false. -/
theorem eq_structural :
    (∀ p q : DatastorePath,
      p.pyEq (PyVal.dsPath q) = true ↔
        p.datastore_name = q.datastore_name ∧ p.rel_path = q.rel_path) ∧
    (∀ (p : DatastorePath) (v : String), p.pyEq (PyVal.other v) = false) := by
  constructor
  · intro p q
    simp [DatastorePath.pyEq]
  · intro p v
    rfl

/-- Claim C9: for p = DatastorePath("ds", "a/b/c.txt"), the basename is
"c.txt", the dirname is "a/b", and the parent is
DatastorePath("ds", "a/b"). -/
theorem parent_basename_dirname :
    ((DatastorePath.init (pystr "ds") [some (pystr "a/b/c.txt")]).map
      DatastorePath.basename = .ok (pystr "c.txt")) ∧
    ((DatastorePath.init (pystr "ds") [some (pystr "a/b/c.txt")]).map
      DatastorePath.dirname = .ok (pystr "a/b")) ∧
    ((DatastorePath.init (pystr "ds") [some (pystr "a/b/c.txt")]).bind
      DatastorePath.parent = .ok ⟨pystr "ds", pystr "a/b"⟩) := by
  decide

theorem init_ok_name {n : PyStr} {ps : List (Option PyStr)} {p : DatastorePath}
    (h : DatastorePath.init n ps = .ok p) : p.datastore_name = n ∧ n ≠ [] := by
  by_cases hn : n = []
  · simp [DatastorePath.init, hn] at h
  · refine ⟨?_, hn⟩
    cases ps with
    | nil =>
      simp [DatastorePath.init, hn] at h
      subst h
      rfl
    | cons a rest =>
      by_cases hm : none ∈ (a :: rest)
      · simp [DatastorePath.init, hn, hm] at h
      · simp [DatastorePath.init, hn, hm] at h
        subst h
        rfl

/-- Claim C6: Datastore construction fails with ValueError (the
InvalidArgument validation error) exactly when the name is absent, the
ref is absent, the freespace is given without a capacity, or both are
given with the capacity smaller than the freespace; any successful
construction stores exactly the given values. -/
theorem datastore_init_spec :
    ∀ (r : Option String) (n : Option PyStr) (c f : Option Int),
      (Datastore.init r n c f = .error .valueError ↔
        n = none ∨ r = none ∨ (f ≠ none ∧ c = none) ∨
          ∃ cv fv, c = some cv ∧ f = some fv ∧ cv < fv) ∧
      (∀ d, Datastore.init r n c f = .ok d →
        r = some d.ref ∧ n = some d.name ∧ c = d.capacity ∧ f = d.freespace) := by
  intro r n c f
  constructor
  · cases n <;> cases r <;> cases c <;> cases f <;>
      simp [Datastore.init]
  · intro d h
    cases n with
    | none => simp [Datastore.init] at h
    | some nv =>
      cases r with
      | none => simp [Datastore.init] at h
      | some rv =>
        cases c with
        | none =>
          cases f with
          | none =>
            simp [Datastore.init] at h
            subst h
            simp
          | some fv => simp [Datastore.init] at h
        | some cv =>
          cases f with
          | none =>
            simp [Datastore.init] at h
            subst h
            simp
          | some fv =>
            unfold Datastore.init at h
            dsimp only at h
            split_ifs at h with hlt
            all_goals (cases h; simp)

/-- Claim C6 (witness): the stored-values clause applied to a concrete
successful construction. -/
theorem datastore_init_spec_witness :
    some "r" = some (Datastore.mk "r" (pystr "ds") (some 10) (some 5)).ref ∧
    some (pystr "ds") = some (Datastore.mk "r" (pystr "ds") (some 10) (some 5)).name ∧
    some (10 : Int) = (Datastore.mk "r" (pystr "ds") (some 10) (some 5)).capacity ∧
    some (5 : Int) = (Datastore.mk "r" (pystr "ds") (some 10) (some 5)).freespace :=
  (datastore_init_spec (some "r") (some (pystr "ds")) (some 10) (some 5)).2
    (Datastore.mk "r" (pystr "ds") (some 10) (some 5)) (by decide)

/-- Claim C10: when the first left bracket of the input is immediately
followed by a right bracket, parse fails with the same ValueError as
direct construction with an empty datastore name, and parse never
returns a DatastorePath whose datastore name is empty. -/
theorem parse_empty_name :
    (∀ a b : PyStr, '[' ∉ a →
      DatastorePath.parse (a ++ '[' :: ']' :: b) = .error .valueError) ∧
    (∀ x : PyStr, DatastorePath.init [] [some x] = .error .valueError) ∧
    (∀ (s : PyStr) (p : DatastorePath),
      DatastorePath.parse s = .ok p → p.datastore_name ≠ []) := by
  refine ⟨?_, ?_, ?_⟩
  · intro a b ha
    have hne : a ++ '[' :: ']' :: b ≠ [] := by simp
    simp [DatastorePath.parse, hne, splitFirst_append_cons (']' :: b) ha,
      splitFirst_cons_self, DatastorePath.init]
  · intro x
    simp [DatastorePath.init]
  · intro s p h
    by_cases hs : s = []
    · simp [DatastorePath.parse, hs] at h
    · cases hsp : splitFirst '[' s with
      | none => simp [DatastorePath.parse, hs, hsp] at h
      | some pr =>
        obtain ⟨pre, afterB⟩ := pr
        cases hsp2 : splitFirst ']' afterB with
        | none =>
          simp [DatastorePath.parse, hs, hsp, hsp2] at h
          obtain ⟨e1, e2⟩ := init_ok_name h
          rw [e1]
          exact e2
        | some pr2 =>
          obtain ⟨name2, path2⟩ := pr2
          simp [DatastorePath.parse, hs, hsp, hsp2] at h
          obtain ⟨e1, e2⟩ := init_ok_name h
          rw [e1]
          exact e2

/-- Claim C10 (witness): the empty-name clause applied to "[] foo" and
the never-empty clause applied to the result of parsing "[ds] x". -/
theorem parse_empty_name_witness :
    '[' ∉ ([] : PyStr) ∧
    DatastorePath.parse ([] ++ '[' :: ']' :: pystr " foo") = .error .valueError ∧
    (⟨pystr "ds", pystr "x"⟩ : DatastorePath).datastore_name ≠ [] :=
  ⟨by decide, parse_empty_name.1 [] (pystr " foo") (by decide),
    parse_empty_name.2.2 (pystr "[ds] x") ⟨pystr "ds", pystr "x"⟩ (by decide)⟩

theorem joinSpec_append : ∀ (x y : PyStr) (t : List PyStr),
    joinSpec (x ++ y) t = x ++ joinSpec y t
  | _, _, [] => rfl
  | x, y, b :: t => by simp [joinSpec, List.append_assoc]

theorem posixJoin_eq_joinSpec : ∀ (ps : List PyStr) (a : PyStr),
    (∀ s ∈ a :: ps, s ≠ [] ∧ s.head? ≠ some '/' ∧ s.getLast? ≠ some '/') →
    posixJoin a ps = joinSpec a ps
  | [], _, _ => rfl
  | b :: t, a, h => by
    obtain ⟨ha1, ha2, ha3⟩ := h a (List.mem_cons_self a _)
    obtain ⟨hb1, hb2, hb3⟩ := h b (List.mem_cons_of_mem a (List.mem_cons_self b t))
    have hcond : ¬(a = [] ∨ a.getLast? = some '/') := by
      rintro (h1 | h1)
      · exact ha1 h1
      · exact ha3 h1
    have hstep : joinStep a b = a ++ '/' :: b := by
      unfold joinStep
      rw [if_neg hb2, if_neg hcond]
    have hrec : posixJoin a (b :: t) = posixJoin (joinStep a b) t := rfl
    have hcond2 : ∀ s ∈ (a ++ '/' :: b) :: t,
        s ≠ [] ∧ s.head? ≠ some '/' ∧ s.getLast? ≠ some '/' := by
      intro s hs
      rcases List.mem_cons.mp hs with rfl | hs2
      · refine ⟨by simp, ?_, ?_⟩
        · rw [List.head?_append_of_ne_nil a ha1]
          exact ha2
        · rw [List.getLast?_append_cons,
            show ('/' :: b) = ['/'] ++ b from rfl,
            List.getLast?_append_of_ne_nil ['/'] hb1]
          exact hb3
      · exact h s (List.mem_cons_of_mem a (List.mem_cons_of_mem b hs2))
    rw [hrec, hstep, posixJoin_eq_joinSpec t (a ++ '/' :: b) hcond2,
      show a ++ '/' :: b = (a ++ ['/']) ++ b by simp, joinSpec_append]
    simp [joinSpec]

/-- Claim C5 (counterexample): joining "a/b" with the empty segment
yields "a/b/" with a trailing slash: an empty segment does contribute a
separator when the accumulated path is non-empty and not already
slash-terminated. -/
theorem join_empty_counterexample :
    ((DatastorePath.init (pystr "ds") [some (pystr "a/b")]).bind
      (fun p => p.join [some (pystr "")]) = .ok ⟨pystr "ds", pystr "a/b/"⟩) ∧
    pystr "a/b/" ≠ pystr "a/b" := by
  decide

/-- Claim C5 (amended): when every segment is non-empty and neither
begins nor ends with a slash, joining concatenates the segments left to
right with exactly one slash between adjacent segments; an empty
segment, however, contributes a separator when the accumulated path is
non-empty and not slash-terminated, so joining "a/b" with "" yields
"a/b/". -/
theorem join_segments :
    (∀ (a : PyStr) (ps : List PyStr),
      (∀ s ∈ a :: ps, s ≠ [] ∧ s.head? ≠ some '/' ∧ s.getLast? ≠ some '/') →
      posixJoin a ps = joinSpec a ps) ∧
    ((DatastorePath.init (pystr "ds") [some (pystr "a/b")]).bind
      (fun p => p.join [some (pystr "")]) = .ok ⟨pystr "ds", pystr "a/b/"⟩) :=
  ⟨fun a ps h => posixJoin_eq_joinSpec ps a h, by decide⟩

/-- Claim C5 (witness): the join characterization applied to the
segments "a" and "b". -/
theorem join_segments_witness :
    (∀ s ∈ [pystr "a", pystr "b"],
      s ≠ [] ∧ s.head? ≠ some '/' ∧ s.getLast? ≠ some '/') ∧
    posixJoin (pystr "a") [pystr "b"] = joinSpec (pystr "a") [pystr "b"] :=
  ⟨by decide, join_segments.1 (pystr "a") [pystr "b"] (by decide)⟩

theorem pyStrip_nil : pyStrip [] = [] := rfl

/-- Claim C1 (counterexample): the round trip fails for the valid
datastore name "a]b" (non-empty, and the rel path "x" carries no
surrounding whitespace), because parse cuts the name at the first right
bracket. -/
theorem round_trip_counterexample :
    (pystr "a]b" ≠ [] ∧ pyStrip (pystr "x") = pystr "x") ∧
    (DatastorePath.init (pystr "a]b") [some (pystr "x")]).bind
      (fun p => DatastorePath.parse p.toStr) ≠
      DatastorePath.init (pystr "a]b") [some (pystr "x")] := by
  decide

/-- Claim C1 (amended): for every non-empty datastore name containing
no right bracket and every rel path equal to its own whitespace-strip,
parsing the canonical rendering of DatastorePath(datastore_name,
rel_path) returns exactly that DatastorePath. -/
theorem round_trip (dn rp : PyStr) (h1 : dn ≠ []) (h2 : ']' ∉ dn)
    (h3 : pyStrip rp = rp) :
    DatastorePath.init dn [some rp] = .ok ⟨dn, rp⟩ ∧
    DatastorePath.parse (DatastorePath.toStr ⟨dn, rp⟩) = .ok ⟨dn, rp⟩ := by
  refine ⟨init_single rp h1, ?_⟩
  by_cases hrp : rp = []
  · subst hrp
    simp [DatastorePath.toStr, DatastorePath.parse, splitFirst_cons_self,
      splitFirst_append_cons [] h2, pyStrip_nil, init_single [] h1]
  · simp [DatastorePath.toStr, hrp, DatastorePath.parse, splitFirst_cons_self,
      splitFirst_append_cons (' ' :: rp) h2, pyStrip_cons_space, h3,
      init_single rp h1]

/-- Claim C1 (witness): the round trip applied to the concrete name
"ds" and rel path "a/b". -/
theorem round_trip_witness :
    (pystr "ds" ≠ [] ∧ ']' ∉ pystr "ds" ∧ pyStrip (pystr "a/b") = pystr "a/b") ∧
    DatastorePath.parse (DatastorePath.toStr ⟨pystr "ds", pystr "a/b"⟩) =
      .ok ⟨pystr "ds", pystr "a/b"⟩ :=
  ⟨⟨by decide, by decide, by decide⟩,
    (round_trip (pystr "ds") (pystr "a/b") (by decide) (by decide) (by decide)).2⟩

theorem joinStep_head {a b : PyStr} (ha : a.head? ≠ some '/')
    (hb : b.head? ≠ some '/') : (joinStep a b).head? ≠ some '/' := by
  unfold joinStep
  split_ifs with h1 h2
  · exact absurd h1 hb
  · rcases h2 with h2 | h2
    · subst h2
      simpa using hb
    · cases a with
      | nil => simpa using hb
      | cons x xs => simpa using ha
  · cases a with
    | nil => exact absurd (Or.inl rfl) h2
    | cons x xs => simpa using ha

theorem posixJoin_head : ∀ (ps : List PyStr) (a : PyStr),
    a.head? ≠ some '/' → (∀ b ∈ ps, b.head? ≠ some '/') →
    (posixJoin a ps).head? ≠ some '/'
  | [], _, ha, _ => ha
  | b :: t, a, ha, h =>
    posixJoin_head t (joinStep a b)
      (joinStep_head ha (h b (List.mem_cons_self b t)))
      (fun x hx => h x (List.mem_cons_of_mem b hx))

theorem init_rel_head {n : PyStr} {ps : List (Option PyStr)} {p : DatastorePath}
    (h : DatastorePath.init n ps = .ok p)
    (hc : ∀ o ∈ ps, (o.getD []).head? ≠ some '/') :
    p.rel_path.head? ≠ some '/' := by
  by_cases hn : n = []
  · simp [DatastorePath.init, hn] at h
  · cases ps with
    | nil =>
      simp [DatastorePath.init, hn] at h
      subst h
      simp
    | cons a rest =>
      by_cases hm : none ∈ (a :: rest)
      · simp [DatastorePath.init, hn, hm] at h
      · simp [DatastorePath.init, hn, hm] at h
        subst h
        apply posixJoin_head
        · exact hc a (List.mem_cons_self a rest)
        · intro b hb
          obtain ⟨o, ho, rfl⟩ := List.mem_map.mp hb
          exact hc o (List.mem_cons_of_mem a ho)

/-- Claim C3 (counterexample): join with the absolute component "/c/d"
produces a stored rel_path that begins with a slash. -/
theorem no_leading_slash_counterexample :
    ((DatastorePath.init (pystr "ds") [some (pystr "a/b")]).bind
      (fun p => p.join [some (pystr "/c/d")]) = .ok ⟨pystr "ds", pystr "/c/d"⟩) ∧
    (pystr "/c/d").head? = some '/' := by
  decide

/-- Claim C3 (amended): a DatastorePath produced by direct construction
or Datastore.build_path whose components do not begin with a slash, by
join of such components on a path whose rel_path does not begin with a
slash, or by parent of such a path, has a rel_path that does not begin
with a slash; parse, however, can produce a leading slash when the path
portion of its input has one, as on "[ds] /x". -/
theorem no_leading_slash :
    (∀ (n : PyStr) (ps : List (Option PyStr)) (p : DatastorePath),
      DatastorePath.init n ps = .ok p →
      (∀ o ∈ ps, (o.getD []).head? ≠ some '/') →
      p.rel_path.head? ≠ some '/') ∧
    (∀ (d : Datastore) (ps : List (Option PyStr)) (p : DatastorePath),
      d.build_path ps = .ok p →
      (∀ o ∈ ps, (o.getD []).head? ≠ some '/') →
      p.rel_path.head? ≠ some '/') ∧
    (∀ (q : DatastorePath) (ps : List (Option PyStr)) (p : DatastorePath),
      q.join ps = .ok p →
      q.rel_path.head? ≠ some '/' →
      (∀ o ∈ ps, (o.getD []).head? ≠ some '/') →
      p.rel_path.head? ≠ some '/') ∧
    (∀ q p : DatastorePath, q.parent = .ok p →
      q.rel_path.head? ≠ some '/' → p.rel_path.head? ≠ some '/') ∧
    DatastorePath.parse (pystr "[ds] /x") = .ok ⟨pystr "ds", pystr "/x"⟩ := by
  refine ⟨fun n ps p h hc => init_rel_head h hc,
    fun d ps p h hc => init_rel_head h hc, ?_, ?_, by decide⟩
  · intro q ps p h hq hc
    cases ps with
    | nil =>
      simp [DatastorePath.join] at h
      subst h
      exact hq
    | cons a rest =>
      by_cases hm : none ∈ (a :: rest)
      · simp [DatastorePath.join, hm] at h
      · simp [DatastorePath.join, hm] at h
        apply init_rel_head h
        intro o ho
        rcases List.mem_cons.mp ho with rfl | ho2
        · simpa using hq
        · exact hc o ho2
  · intro q p h hq
    unfold DatastorePath.parent at h
    apply init_rel_head h
    intro o ho
    rcases List.mem_cons.mp ho with rfl | ho2
    · simpa using pre_head (posixDirname_pre q.rel_path) hq
    · simp at ho2

/-- Claim C3 (witness): the conjuncts applied to concrete
constructions: DatastorePath("ds", "a"), its join with "b", and the
parent of DatastorePath("ds", "a/b"). -/
theorem no_leading_slash_witness :
    (⟨pystr "ds", pystr "a"⟩ : DatastorePath).rel_path.head? ≠ some '/' ∧
    (⟨pystr "ds", pystr "a/b"⟩ : DatastorePath).rel_path.head? ≠ some '/' ∧
    (⟨pystr "ds", pystr "a"⟩ : DatastorePath).rel_path.head? ≠ some '/' :=
  ⟨no_leading_slash.1 (pystr "ds") [some (pystr "a")] ⟨pystr "ds", pystr "a"⟩
      (by decide) (by decide),
    no_leading_slash.2.2.1 ⟨pystr "ds", pystr "a"⟩ [some (pystr "b")]
      ⟨pystr "ds", pystr "a/b"⟩ (by decide) (by decide) (by decide),
    no_leading_slash.2.2.2.1 ⟨pystr "ds", pystr "a/b"⟩ ⟨pystr "ds", pystr "a"⟩
      (by decide) (by decide)⟩

